import Mathlib

/-!
Verification of the audio-reactive lighting pipeline of `openrgb-scripts`
(`effects/audio.py`, `effects/audio_loopback.py`, `classes/Effect.py`,
`classes/Colors.py`).

Modelling conventions:
* Python floats are modelled as exact rationals (`ℚ`); `math.sqrt` is the
  real square root, so RMS values live in `ℝ`.
* A sample delivered by the audio backend is either a scalar or a list of
  per-channel values (`Sample`).
* Python exceptions are modelled with `Except PyErr`.  Inside the audio
  callback an exception aborts the remainder of the body but keeps every
  state mutation already performed, so the callback body returns
  `Except (PyErr × AudioState) AudioState`: the error case carries the
  state as mutated up to the point where the exception was raised.
* `random.randint(0,255)` draws are modelled by passing the drawn colour in
  as an oracle argument `rand`.
* Device I/O is modelled by the list of colours transmitted to the target
  devices (one entry per device, in order).
-/

namespace OpenRGBScripts

/-- `openrgb.utils.RGBColor`: three integer channel values.  The effects
index the colour components positionally (`color[0]`, `color[1]`,
`color[2]`), modelled by the `red`, `green`, `blue` projections. -/
structure RGBColor where
  red : ℤ
  green : ℤ
  blue : ℤ
deriving DecidableEq, Repr

/-- `Colors.BLACK.value` from `classes/Colors.py`. -/
def black : RGBColor := ⟨0, 0, 0⟩

/-- `Colors.RED.value`. -/
def red : RGBColor := ⟨255, 0, 0⟩

/-- `Colors.ORANGE.value`. -/
def orange : RGBColor := ⟨255, 127, 0⟩

/-- `Colors.YELLOW.value`. -/
def yellow : RGBColor := ⟨255, 255, 0⟩

/-- `Colors.GREEN.value`. -/
def green : RGBColor := ⟨0, 255, 0⟩

/-- `Colors.BLUE.value`. -/
def blue : RGBColor := ⟨0, 0, 255⟩

/-- `Colors.VIOLET.value`. -/
def violet : RGBColor := ⟨148, 0, 211⟩

/-- Python exceptions that the audio pipeline can raise. -/
inductive PyErr where
  | indexError
  | typeError
  | zeroDivisionError
deriving DecidableEq, Repr

/-- Python `int(x)` on a float: truncation toward zero. -/
def pyint (q : ℚ) : ℤ := if q < 0 then ⌈q⌉ else ⌊q⌋

/-- `lerp_color` from `classes/Colors.py`:
`int(c1.c + (c2.c - c1.c) * t)` per channel. -/
def lerp_color (c1 c2 : RGBColor) (t : ℚ) : RGBColor :=
  ⟨pyint ((c1.red : ℚ) + ((c2.red : ℚ) - (c1.red : ℚ)) * t),
   pyint ((c1.green : ℚ) + ((c2.green : ℚ) - (c1.green : ℚ)) * t),
   pyint ((c1.blue : ℚ) + ((c2.blue : ℚ) - (c1.blue : ℚ)) * t)⟩

/-- `Effect.clamp_brightness` from `classes/Effect.py`:
`int(color.c * max_brightness)` per channel. -/
def clamp_brightness (max_brightness : ℚ) (color : RGBColor) : RGBColor :=
  ⟨pyint ((color.red : ℚ) * max_brightness),
   pyint ((color.green : ℚ) * max_brightness),
   pyint ((color.blue : ℚ) * max_brightness)⟩

/-- `Effect.set_all_target_devices_color` from `classes/Effect.py`, viewed
through its observable device I/O: the clamped colour is transmitted to
each of the `num_devices` resolved target devices (`device.set_color`),
in order.  `num_devices` stands for the length of the list returned by
`get_target_devices`. -/
def set_all_target_devices_color (max_brightness : ℚ) (num_devices : ℕ)
    (color : RGBColor) : List RGBColor :=
  List.replicate num_devices (clamp_brightness max_brightness color)

/-- `Effect.turn_off_target_devices` from `classes/Effect.py`:
`set_all_target_devices_color(Colors.BLACK.value)`. -/
def turn_off_target_devices (max_brightness : ℚ) (num_devices : ℕ) :
    List RGBColor :=
  set_all_target_devices_color max_brightness num_devices black

/-- One sample of an audio block: either a scalar (mono data) or the list
of per-channel values of one frame (stereo/multi-channel data). -/
inductive Sample where
  | mono (v : ℚ)
  | multi (chans : List ℚ)
deriving DecidableEq, Repr

/-- `sample[0] if isinstance(sample, (list, tuple)) else sample`:
indexing an empty frame raises `IndexError`. -/
def sampleFirst : Sample → Except PyErr ℚ
  | .mono v => .ok v
  | .multi [] => .error .indexError
  | .multi (c :: _) => .ok c

/-- A sample used directly in arithmetic.  When the first sample of the
block is a scalar the Python code skips the first-channel extraction, so a
later list-valued sample reaches `sample * sample` (resp.
`data[i] - data[i-1]`) and raises `TypeError`; we surface that error at
extraction time, which yields the same value/error behaviour. -/
def sampleScalar : Sample → Except PyErr ℚ
  | .mono v => .ok v
  | .multi _ => .error .typeError

/-- Left-to-right effectful map over a block, stopping at the first
raised exception (the evaluation order of a Python list
comprehension / generator expression). -/
def mapE (f : Sample → Except PyErr ℚ) : List Sample → Except PyErr (List ℚ)
  | [] => .ok []
  | a :: t =>
    match f a, mapE f t with
    | .error e, _ => .error e
    | .ok _, .error e => .error e
    | .ok b, .ok bs => .ok (b :: bs)

/-- The first-channel extraction shared by `_calculate_rms` and
`_analyze_frequency_bands` (both files):
`data[0]` on an empty block raises `IndexError`; when `data[0]` is a
list/tuple every sample is replaced by its first channel. -/
def extractChannel : List Sample → Except PyErr (List ℚ)
  | [] => .error .indexError
  | data@(.multi _ :: _) => mapE sampleFirst data
  | data@(.mono _ :: _) => mapE sampleScalar data

/-- The mean-square part of `AudioEffect._calculate_rms`
(= `AudioLoopbackEffect._calculate_rms`): `0.0` for an empty block
(`if not audio_data`), otherwise `sum(s*s for s in data) / len(data)`
over the extracted first channel.  The source takes `math.sqrt` of this
value; the square root is applied in `calculate_rms` below. -/
def calculate_rms_sq : List Sample → Except PyErr ℚ
  | [] => .ok 0
  | audio_data =>
    (extractChannel audio_data).map fun data =>
      ((data.map fun s => s * s).sum) / (data.length : ℚ)

/-- `AudioEffect._calculate_rms` (identical in both effect files):
`sqrt(mean(sample_i ** 2))` over the first channel. -/
noncomputable def calculate_rms (audio_data : List Sample) :
    Except PyErr ℝ :=
  (calculate_rms_sq audio_data).map fun ms => Real.sqrt (ms : ℝ)

/-- The `amplitude_changes` list built by the
`for i in range(1, data_length)` loop of `_analyze_frequency_bands`:
`abs(data[i] - data[i-1])` for consecutive samples. -/
def amplitude_changes : List ℚ → List ℚ
  | a :: b :: rest => |b - a| :: amplitude_changes (b :: rest)
  | _ => []

/-- `AudioEffect._analyze_frequency_bands`
(= `AudioLoopbackEffect._analyze_frequency_bands`): mean absolute
sample-to-sample delta of the first channel, mapped to a band index by the
fixed breakpoints 0.01 / 0.02 / 0.03 / 0.04 / 0.05.  All internal
exceptions are caught and yield `0`, as does a block with fewer than two
samples. -/
def analyze_frequency_bands (audio_data : List Sample) : ℕ :=
  match extractChannel audio_data with
  | .error _ => 0
  | .ok data =>
    if data.length < 2 then 0
    else
      let changes := amplitude_changes data
      if changes.length = 0 then 0
      else
        let avg_change := changes.sum / (changes.length : ℚ)
        if avg_change < 1/100 then 0
        else if avg_change < 2/100 then 1
        else if avg_change < 3/100 then 2
        else if avg_change < 4/100 then 3
        else if avg_change < 5/100 then 4
        else 5

/-- The fixed palette of `_get_color_for_frequency_band` (both files). -/
def bandColors : List RGBColor := [red, orange, yellow, green, blue, violet]

/-- `AudioEffect._get_color_for_frequency_band`
(= `AudioLoopbackEffect._get_color_for_frequency_band`): in-range indices
pick from the fixed palette, out-of-range indices yield a random colour
(the oracle `rand` stands for the `random.randint` draw).  The `getD`
default is unreachable because `0 ≤ band_index < 6 = bandColors.length`. -/
def get_color_for_frequency_band (rand : RGBColor) (band_index : ℤ) :
    RGBColor :=
  if 0 ≤ band_index ∧ band_index < 6 then
    bandColors.getD band_index.toNat black
  else rand

/-- The configuration fields of `AudioOptions` / `AudioLoopbackOptions`
that the audio callback reads.  `mode_loopback` is
`options.mode == 'loopback'` for `AudioEffect`; `AudioLoopbackEffect`
behaves as `mode_loopback = true` (it always uses the band-driven
colour). -/
structure AudioOptions where
  peak_threshold : ℚ
  peak_duration : ℚ
  fade_duration : ℚ
  mode_loopback : Bool
deriving DecidableEq, Repr

/-- The shared mutable state of `AudioEffect` / `AudioLoopbackEffect`
read and written by `_audio_callback` under `self.lock`. -/
structure AudioState where
  peak_detected : Bool
  peak_start_time : ℚ
  current_color : RGBColor
  target_color : RGBColor
  fade_start_time : ℚ
  is_fading : Bool
deriving DecidableEq, Repr

/-- The decidable form of the source's `rms > self.options.peak_threshold`
with `rms = sqrt ms`: for `0 ≤ ms`, `sqrt ms > t ↔ t < 0 ∨ t * t < ms`
(lemma `rms_gt_iff` below). -/
def rms_gt (ms threshold : ℚ) : Bool :=
  decide (threshold < 0) || decide (threshold * threshold < ms)

/-- The body of `AudioEffect._audio_callback`
(= `AudioLoopbackEffect._audio_callback` with `mode_loopback = true`)
after the status check — everything inside the `try`.  `rand` is the
oracle for the `random.randint(0,255)` colour draw of this invocation,
`current_time` is `time.time()`.  An error result carries the state as
already mutated when the exception was raised; the mutation order follows
the source: peak-detection branch / peak-release branch first, then the
fading block, whose division raises `ZeroDivisionError` when
`fade_duration = 0`.  (The untracked debug attribute `_last_rms` of
`audio.py` is omitted.) -/
def audio_callback_body (opts : AudioOptions) (rand : RGBColor)
    (indata : List Sample) (current_time : ℚ) (s : AudioState) :
    Except (PyErr × AudioState) AudioState :=
  match calculate_rms_sq indata with
  | .error e => .error (e, s)
  | .ok ms =>
    let s1 :=
      if rms_gt ms opts.peak_threshold && !s.peak_detected then
        let target :=
          if opts.mode_loopback then
            get_color_for_frequency_band rand
              ((analyze_frequency_bands indata : ℕ) : ℤ)
          else rand
        { s with peak_detected := true, peak_start_time := current_time,
                 target_color := target, current_color := target,
                 is_fading := false }
      else if s.peak_detected &&
          decide (opts.peak_duration < current_time - s.peak_start_time) then
        { s with peak_detected := false, fade_start_time := current_time,
                 is_fading := true }
      else s
    if s1.is_fading then
      if opts.fade_duration = 0 then .error (.zeroDivisionError, s1)
      else
        let fade_progress :=
          (current_time - s1.fade_start_time) / opts.fade_duration
        if 1 ≤ fade_progress then
          .ok { s1 with current_color := black, is_fading := false }
        else
          let fade_factor := 1 - fade_progress
          .ok { s1 with current_color :=
            ⟨pyint ((s1.target_color.red : ℚ) * fade_factor),
             pyint ((s1.target_color.green : ℚ) * fade_factor),
             pyint ((s1.target_color.blue : ℚ) * fade_factor)⟩ }
    else .ok s1

/-- `AudioEffect._audio_callback` (= `AudioLoopbackEffect._audio_callback`
with `mode_loopback = true`): a truthy `status` flag drops the block
before any processing (`print` + `return`); otherwise the body runs and
any exception it raises is caught, logged, and not propagated — the state
reached at the exception point is kept. -/
def audio_callback (opts : AudioOptions) (rand : RGBColor)
    (indata : List Sample) (status : Bool) (current_time : ℚ)
    (s : AudioState) : AudioState :=
  if status then s
  else
    match audio_callback_body opts rand indata current_time s with
    | .ok s' => s'
    | .error (_, s') => s'

/-- The lifecycle flags of the effect touched by `stop`. -/
structure EffectRunState where
  running : Bool
  stream_open : Bool
deriving DecidableEq, Repr

/-- `AudioEffect.stop` (= `AudioLoopbackEffect.stop`): sets
`running = False`, stops and closes the stream, and then calls
`turn_off_target_devices()`.  The second component is the list of colours
the call transmits to the target devices. -/
def audio_stop (_rs : EffectRunState) (max_brightness : ℚ)
    (num_devices : ℕ) : EffectRunState × List RGBColor :=
  (⟨false, false⟩, turn_off_target_devices max_brightness num_devices)

/-- The observable events of one render-loop iteration. -/
inductive LoopEvent where
  | lockAcquire
  | deviceWrite (c : RGBColor)
  | lockRelease
deriving DecidableEq, Repr

/-- `AudioEffect.loop`: `if not self.running: return`, then
`with self.lock: self.set_all_target_devices_color(self.current_color)`.
The trace records lock acquisition, the device writes performed inside
the `with` block, and lock release.  (`AudioLoopbackEffect.loop` is the
same without the `running` guard, i.e. the `running = true` trace.) -/
def audio_loop_trace (running : Bool) (max_brightness : ℚ)
    (num_devices : ℕ) (current_color : RGBColor) : List LoopEvent :=
  if !running then []
  else
    .lockAcquire ::
      ((set_all_target_devices_color max_brightness num_devices
          current_color).map .deviceWrite ++ [.lockRelease])

/-- The colour chosen when a peak is registered: band-driven in loopback
mode, the random draw otherwise (`_audio_callback`, peak branch). -/
def peak_target (opts : AudioOptions) (rand : RGBColor)
    (indata : List Sample) : RGBColor :=
  if opts.mode_loopback then
    get_color_for_frequency_band rand
      ((analyze_frequency_bands indata : ℕ) : ℤ)
  else rand

/-- A maximal alternating block: `n` samples `a, -a, a, …` (used with
`a = 1` for the ±1 full-scale alternating block). -/
def alternating_block : ℕ → ℚ → List ℚ
  | 0, _ => []
  | n + 1, a => a :: alternating_block n (-a)

theorem pyint_zero : pyint 0 = 0 := by
  simp [pyint]

theorem pyint_of_nonneg {q : ℚ} (h : 0 ≤ q) : pyint q = ⌊q⌋ := by
  simp [pyint, not_lt.mpr h]

theorem pyint_mono {a b : ℚ} (h : a ≤ b) : pyint a ≤ pyint b := by
  by_cases ha : a < 0 <;> by_cases hb : b < 0 <;>
    simp only [pyint, ha, hb, if_true, if_false, if_pos, if_neg, not_false_iff]
  · exact Int.ceil_mono h
  · exact le_trans (Int.ceil_le.mpr (by exact_mod_cast ha.le))
      (Int.floor_nonneg.mpr (not_lt.mp hb))
  · exact absurd (lt_of_le_of_lt h hb) ha
  · exact Int.floor_mono h

theorem mapE_ok_length {f : Sample → Except PyErr ℚ} :
    ∀ {l : List Sample} {l' : List ℚ}, mapE f l = .ok l' → l'.length = l.length := by
  intro l
  induction l with
  | nil =>
    intro l' h
    cases h
    rfl
  | cons a t ih =>
    intro l' h
    cases hfa : f a with
    | error e => simp [mapE, hfa] at h
    | ok b =>
      cases hft : mapE f t with
      | error e => simp [mapE, hfa, hft] at h
      | ok bs =>
        simp only [mapE, hfa, hft] at h
        cases h
        simp [ih hft]

theorem mapE_sampleScalar_mono :
    ∀ l : List ℚ, mapE sampleScalar (l.map Sample.mono) = .ok l := by
  intro l
  induction l with
  | nil => rfl
  | cons a t ih => simp [mapE, sampleScalar, ih]

theorem extractChannel_map_mono {l : List ℚ} (h : l ≠ []) :
    extractChannel (l.map Sample.mono) = .ok l := by
  cases l with
  | nil => exact absurd rfl h
  | cons a t =>
    show mapE sampleScalar (Sample.mono a :: t.map Sample.mono) = .ok (a :: t)
    have := mapE_sampleScalar_mono (a :: t)
    simpa using this

theorem extractChannel_ok_length {data : List Sample} {chan : List ℚ}
    (h : extractChannel data = .ok chan) : chan.length = data.length := by
  cases data with
  | nil => simp [extractChannel] at h
  | cons a t =>
    cases a with
    | mono v => exact mapE_ok_length h
    | multi cs => exact mapE_ok_length h

theorem calculate_rms_sq_nonneg {data : List Sample} {ms : ℚ}
    (h : calculate_rms_sq data = .ok ms) : 0 ≤ ms := by
  cases data with
  | nil =>
    simp only [calculate_rms_sq] at h
    cases h
    exact le_refl 0
  | cons a t =>
    simp only [calculate_rms_sq] at h
    cases hex : extractChannel (a :: t) with
    | error e => simp [hex, Except.map] at h
    | ok chan =>
      simp only [hex, Except.map] at h
      cases h
      apply div_nonneg
      · apply List.sum_nonneg
        intro x hx
        rcases List.mem_map.mp hx with ⟨s, _, rfl⟩
        exact mul_self_nonneg s
      · exact Nat.cast_nonneg _

theorem calculate_rms_ok {data : List Sample} {r : ℝ}
    (h : calculate_rms data = .ok r) :
    ∃ ms : ℚ, calculate_rms_sq data = .ok ms ∧ 0 ≤ ms ∧
      r = Real.sqrt (ms : ℝ) := by
  cases hms : calculate_rms_sq data with
  | error e => simp [calculate_rms, hms, Except.map] at h
  | ok ms =>
    simp only [calculate_rms, hms, Except.map] at h
    cases h
    exact ⟨ms, rfl, calculate_rms_sq_nonneg hms, rfl⟩

theorem rms_gt_iff {ms t : ℚ} (h : 0 ≤ ms) :
    rms_gt ms t = true ↔ (t : ℝ) < Real.sqrt (ms : ℝ) := by
  have hms' : (0 : ℝ) ≤ (ms : ℝ) := by exact_mod_cast h
  simp only [rms_gt, Bool.or_eq_true, decide_eq_true_eq]
  constructor
  · rintro (ht | ht)
    · exact lt_of_lt_of_le (by exact_mod_cast ht) (Real.sqrt_nonneg _)
    · by_cases ht0 : t < 0
      · exact lt_of_lt_of_le (by exact_mod_cast ht0) (Real.sqrt_nonneg _)
      · have ht0' : (0 : ℝ) ≤ (t : ℝ) := by exact_mod_cast not_lt.mp ht0
        have h2 : ((t : ℝ)) * (t : ℝ) < (ms : ℝ) := by exact_mod_cast ht
        have := Real.sqrt_lt_sqrt (mul_self_nonneg (t : ℝ)) h2
        rwa [Real.sqrt_mul_self ht0'] at this
  · intro hlt
    by_cases ht0 : t < 0
    · exact Or.inl ht0
    · right
      have ht0' : (0 : ℝ) ≤ (t : ℝ) := by exact_mod_cast not_lt.mp ht0
      have h2 : (t : ℝ) * (t : ℝ) < Real.sqrt (ms : ℝ) * Real.sqrt (ms : ℝ) :=
        mul_self_lt_mul_self ht0' hlt
      rw [Real.mul_self_sqrt hms'] at h2
      exact_mod_cast h2

theorem rms_gt_eq_false {ms t : ℚ} (h : 0 ≤ ms) :
    rms_gt ms t = false ↔ Real.sqrt (ms : ℝ) ≤ (t : ℝ) := by
  rw [← Bool.not_eq_true, rms_gt_iff h, not_lt]

theorem calculate_rms_sq_map_mono {chan : List ℚ} (h : chan ≠ []) :
    calculate_rms_sq (chan.map Sample.mono) =
      .ok (((chan.map fun s => s * s).sum) / (chan.length : ℚ)) := by
  cases chan with
  | nil => exact absurd rfl h
  | cons a t =>
    show (extractChannel ((a :: t).map Sample.mono)).map _ = _
    rw [extractChannel_map_mono (by simp : (a :: t) ≠ [])]
    rfl

theorem calculate_rms_map_mono {chan : List ℚ} (h : chan ≠ []) :
    calculate_rms (chan.map Sample.mono) =
      .ok (Real.sqrt
        ((((chan.map fun s => s * s).sum) / (chan.length : ℚ) : ℚ) : ℝ)) := by
  rw [calculate_rms, calculate_rms_sq_map_mono h]
  rfl

theorem mapE_sampleFirst_multi :
    ∀ frames : List (ℚ × List ℚ),
      mapE sampleFirst (frames.map fun f => Sample.multi (f.1 :: f.2)) =
        .ok (frames.map Prod.fst) := by
  intro frames
  induction frames with
  | nil => rfl
  | cons f rest ih => simp [mapE, sampleFirst, ih]

/-- C5: `_calculate_rms` returns the non-negative value
`sqrt(mean(sample_i^2))` computed over the first channel only (channels
2..N of a multi-channel block are discarded); the empty block returns 0.0,
an all-zero block returns exactly 0.0, and a constant block of value `a`
returns `|a|`. -/
theorem calculate_rms_contract :
    (∀ (data : List Sample) (r : ℝ), calculate_rms data = .ok r → 0 ≤ r) ∧
    calculate_rms [] = .ok 0 ∧
    (∀ chan : List ℚ, chan ≠ [] →
      calculate_rms (chan.map Sample.mono) =
        .ok (Real.sqrt
          ((((chan.map fun s => s * s).sum) / (chan.length : ℚ) : ℚ) : ℝ))) ∧
    (∀ frames : List (ℚ × List ℚ),
      calculate_rms (frames.map fun f => Sample.multi (f.1 :: f.2)) =
        calculate_rms (frames.map fun f => Sample.mono f.1)) ∧
    (∀ n : ℕ, 0 < n →
      calculate_rms (List.replicate n (Sample.mono 0)) = .ok 0) ∧
    (∀ (a : ℚ) (n : ℕ), 0 < n →
      calculate_rms (List.replicate n (Sample.mono a)) = .ok |(a : ℝ)|) := by
  have hzero : ((0 : ℚ) : ℝ) = 0 := by norm_num
  refine ⟨?_, ?_, ?_, ?_, ?_, ?_⟩
  · intro data r h
    obtain ⟨ms, _, _, rfl⟩ := calculate_rms_ok h
    exact Real.sqrt_nonneg _
  · show Except.map _ _ = _
    rw [show calculate_rms_sq [] = .ok 0 from rfl]
    simp [Except.map, hzero]
  · intro chan h
    exact calculate_rms_map_mono h
  · intro frames
    cases frames with
    | nil => rfl
    | cons f rest =>
      have h1 : extractChannel
          ((f :: rest).map fun f => Sample.multi (f.1 :: f.2)) =
          .ok ((f :: rest).map Prod.fst) := mapE_sampleFirst_multi (f :: rest)
      have h2 : extractChannel ((f :: rest).map fun f => Sample.mono f.1) =
          .ok ((f :: rest).map Prod.fst) := by
        rw [show ((f :: rest).map fun f => Sample.mono f.1) =
            ((f :: rest).map Prod.fst).map Sample.mono from by
          simp [List.map_map]]
        exact extractChannel_map_mono (by simp)
      rw [calculate_rms, calculate_rms,
        show calculate_rms_sq ((f :: rest).map fun f =>
            Sample.multi (f.1 :: f.2)) =
          (extractChannel ((f :: rest).map fun f =>
            Sample.multi (f.1 :: f.2))).map _ from rfl,
        show calculate_rms_sq ((f :: rest).map fun f => Sample.mono f.1) =
          (extractChannel ((f :: rest).map fun f =>
            Sample.mono f.1)).map _ from rfl, h1, h2]
  · intro n hn
    rw [show List.replicate n (Sample.mono 0) =
        (List.replicate n (0 : ℚ)).map Sample.mono from by
      simp [List.map_replicate]]
    rw [calculate_rms_map_mono (by simp [hn.ne'])]
    simp [List.map_replicate, List.sum_replicate, hzero]
  · intro a n hn
    rw [show List.replicate n (Sample.mono a) =
        (List.replicate n (a : ℚ)).map Sample.mono from by
      simp [List.map_replicate]]
    rw [calculate_rms_map_mono (by simp [hn.ne'])]
    have hne : ((n : ℚ)) ≠ 0 := Nat.cast_ne_zero.mpr hn.ne'
    have hsum : ((List.replicate n (a : ℚ)).map fun s => s * s).sum /
        ((List.replicate n (a : ℚ)).length : ℚ) = a * a := by
      simp only [List.map_replicate, List.sum_replicate, List.length_replicate,
        nsmul_eq_mul]
      field_simp
    rw [hsum]
    have : ((a * a : ℚ) : ℝ) = (a : ℝ) ^ 2 := by push_cast; ring
    rw [this, Real.sqrt_sq_eq_abs]

/-- Witness for C5: a constant block of two samples of value `-2` has
RMS `|-2| = 2`. -/
theorem calculate_rms_contract_witness :
    calculate_rms (List.replicate 2 (Sample.mono (-2))) = .ok |((-2 : ℚ) : ℝ)| :=
  calculate_rms_contract.2.2.2.2.2 (-2) 2 (by decide)

theorem amplitude_changes_length :
    ∀ l : List ℚ, (amplitude_changes l).length = l.length - 1 := by
  intro l
  induction l with
  | nil => rfl
  | cons a t ih =>
    cases t with
    | nil => rfl
    | cons b t2 =>
      show (amplitude_changes (b :: t2)).length + 1 = _
      rw [ih]
      simp

theorem amplitude_changes_replicate (c : ℚ) :
    ∀ n : ℕ, amplitude_changes (List.replicate n c) = List.replicate (n - 1) 0 := by
  intro n
  induction n with
  | zero => rfl
  | succ m ih =>
    cases m with
    | zero => rfl
    | succ k =>
      show |c - c| :: amplitude_changes (List.replicate (k + 1) c) = _
      rw [ih]
      simp [List.replicate_succ]

theorem amplitude_changes_alternating :
    ∀ (n : ℕ) (a : ℚ), |a| = 1 →
      amplitude_changes (alternating_block (n + 1) a) = List.replicate n 2 := by
  intro n
  induction n with
  | zero => intro a _; rfl
  | succ m ih =>
    intro a ha
    have h1 : alternating_block (m + 1 + 1) a =
        a :: -a :: alternating_block m a := by
      show a :: alternating_block (m + 1) (-a) = _
      cases m with
      | zero => simp [alternating_block]
      | succ k => simp [alternating_block, neg_neg]
    have h2 : (-a : ℚ) :: alternating_block m a = alternating_block (m + 1) (-a) := by
      cases m with
      | zero => simp [alternating_block]
      | succ k => simp [alternating_block, neg_neg]
    have habs : |(-a : ℚ) - a| = 2 := by
      rw [show (-a : ℚ) - a = -(2 * a) by ring, abs_neg, abs_mul, ha]
      norm_num
    rw [h1,
      show amplitude_changes (a :: -a :: alternating_block m a) =
        |(-a : ℚ) - a| :: amplitude_changes (-a :: alternating_block m a)
        from rfl,
      habs, h2, ih (-a) (by simpa [abs_neg] using ha)]
    rfl

theorem alternating_block_length :
    ∀ (n : ℕ) (a : ℚ), (alternating_block n a).length = n := by
  intro n
  induction n with
  | zero => intro a; rfl
  | succ m ih =>
    intro a
    show (alternating_block m (-a)).length + 1 = m + 1
    rw [ih]

/-- The breakpoint table of the heuristic classifier, with the mean
absolute delta already computed. -/
theorem analyze_frequency_bands_mono_eq {chan : List ℚ}
    (h2 : 2 ≤ chan.length) :
    analyze_frequency_bands (chan.map Sample.mono) =
      (if (amplitude_changes chan).sum / ((amplitude_changes chan).length : ℚ)
          < 1/100 then 0
       else if (amplitude_changes chan).sum /
          ((amplitude_changes chan).length : ℚ) < 2/100 then 1
       else if (amplitude_changes chan).sum /
          ((amplitude_changes chan).length : ℚ) < 3/100 then 2
       else if (amplitude_changes chan).sum /
          ((amplitude_changes chan).length : ℚ) < 4/100 then 3
       else if (amplitude_changes chan).sum /
          ((amplitude_changes chan).length : ℚ) < 5/100 then 4
       else 5) := by
  have hne : chan ≠ [] := by
    intro h
    rw [h] at h2
    exact absurd h2 (by decide)
  have hlen : ¬ chan.length < 2 := not_lt.mpr h2
  have hch : ¬ (amplitude_changes chan).length = 0 := by
    rw [amplitude_changes_length]
    omega
  rw [analyze_frequency_bands, extractChannel_map_mono hne]
  simp only [hlen, if_false, hch]

/-- C6: for blocks with at least two samples the heuristic classifier
computes the mean absolute sample-to-sample delta and maps it through the
fixed breakpoints `0.01 / 0.02 / 0.03 / 0.04 / 0.05` to bands `0..5`;
a constant (near-zero-variation) block classifies to band 0 and a maximal
alternating ±1 block classifies to band 5. -/
theorem analyze_frequency_bands_heuristic :
    (∀ chan : List ℚ, 2 ≤ chan.length →
      analyze_frequency_bands (chan.map Sample.mono) =
        (if (amplitude_changes chan).sum /
            ((amplitude_changes chan).length : ℚ) < 1/100 then 0
         else if (amplitude_changes chan).sum /
            ((amplitude_changes chan).length : ℚ) < 2/100 then 1
         else if (amplitude_changes chan).sum /
            ((amplitude_changes chan).length : ℚ) < 3/100 then 2
         else if (amplitude_changes chan).sum /
            ((amplitude_changes chan).length : ℚ) < 4/100 then 3
         else if (amplitude_changes chan).sum /
            ((amplitude_changes chan).length : ℚ) < 5/100 then 4
         else 5)) ∧
    (∀ (c : ℚ) (n : ℕ), 2 ≤ n →
      analyze_frequency_bands (List.replicate n (Sample.mono c)) = 0) ∧
    (∀ n : ℕ, 2 ≤ n →
      analyze_frequency_bands ((alternating_block n 1).map Sample.mono) = 5) := by
  refine ⟨fun chan h2 => analyze_frequency_bands_mono_eq h2, ?_, ?_⟩
  · intro c n hn
    rw [show List.replicate n (Sample.mono c) =
        (List.replicate n c).map Sample.mono from by simp [List.map_replicate]]
    rw [analyze_frequency_bands_mono_eq (by simpa using hn)]
    rw [amplitude_changes_replicate]
    simp
  · intro n hn
    obtain ⟨m, rfl⟩ : ∃ m, n = m + 1 := ⟨n - 1, by omega⟩
    rw [analyze_frequency_bands_mono_eq
      (by rw [alternating_block_length]; exact hn)]
    rw [amplitude_changes_alternating m 1 (by norm_num)]
    have hm : 0 < m := by omega
    have hne : ((m : ℚ)) ≠ 0 := Nat.cast_ne_zero.mpr hm.ne'
    rw [List.sum_replicate, List.length_replicate, nsmul_eq_mul]
    rw [show (m : ℚ) * 2 / (m : ℚ) = 2 from by field_simp]
    norm_num

/-- Witness for C6: the four-sample ±1 alternating block classifies to
band 5, and a constant block classifies to band 0. -/
theorem analyze_frequency_bands_heuristic_witness :
    analyze_frequency_bands ((alternating_block 4 1).map Sample.mono) = 5 ∧
    analyze_frequency_bands (List.replicate 4 (Sample.mono (1/2))) = 0 :=
  ⟨analyze_frequency_bands_heuristic.2.2 4 (by decide),
   analyze_frequency_bands_heuristic.2.1 (1/2) 4 (by decide)⟩

theorem analyze_frequency_bands_le_five (data : List Sample) :
    analyze_frequency_bands data ≤ 5 := by
  rw [analyze_frequency_bands]
  cases extractChannel data with
  | error e => exact Nat.zero_le 5
  | ok chan =>
    simp only
    split_ifs <;> omega

/-- C10: the heuristic classifier always returns a band in `0..5`
(returning 0 for blocks with fewer than two samples and 0 on any internal
error), so the band-driven colour path always yields one of the six
palette colours and the random-RGB fallback of
`_get_color_for_frequency_band` is never reached from the classifier. -/
theorem analyze_band_in_range_palette :
    (∀ data : List Sample, analyze_frequency_bands data ≤ 5) ∧
    (∀ data : List Sample, data.length < 2 → analyze_frequency_bands data = 0) ∧
    (∀ (data : List Sample) (e : PyErr), extractChannel data = .error e →
      analyze_frequency_bands data = 0) ∧
    (∀ (rand : RGBColor) (data : List Sample),
      get_color_for_frequency_band rand
        ((analyze_frequency_bands data : ℕ) : ℤ) ∈ bandColors) ∧
    (∀ (rand rand' : RGBColor) (data : List Sample),
      get_color_for_frequency_band rand
          ((analyze_frequency_bands data : ℕ) : ℤ) =
        get_color_for_frequency_band rand'
          ((analyze_frequency_bands data : ℕ) : ℤ)) := by
  have hcond : ∀ data : List Sample,
      0 ≤ ((analyze_frequency_bands data : ℕ) : ℤ) ∧
      ((analyze_frequency_bands data : ℕ) : ℤ) < 6 := by
    intro data
    have := analyze_frequency_bands_le_five data
    constructor
    · exact Int.ofNat_nonneg _
    · exact_mod_cast Nat.lt_succ_of_le this
  refine ⟨analyze_frequency_bands_le_five, ?_, ?_, ?_, ?_⟩
  · intro data hlen
    rw [analyze_frequency_bands]
    cases hex : extractChannel data with
    | error e => rfl
    | ok chan =>
      have : chan.length < 2 := by rw [extractChannel_ok_length hex]; exact hlen
      simp only [this, if_true]
  · intro data e hex
    rw [analyze_frequency_bands, hex]
  · intro rand data
    rw [get_color_for_frequency_band, if_pos (hcond data)]
    have hlt : ((analyze_frequency_bands data : ℕ) : ℤ).toNat <
        bandColors.length := by
      have := analyze_frequency_bands_le_five data
      simp only [bandColors, List.length_cons, List.length_nil]
      omega
    rw [List.getD_eq_getElem bandColors black hlt]
    exact List.getElem_mem hlt
  · intro rand rand' data
    rw [get_color_for_frequency_band, get_color_for_frequency_band,
      if_pos (hcond data), if_pos (hcond data)]

/-- Witness for C10: a single-sample block has fewer than two samples and
classifies to band 0, whose mapped colour is red for any random draw. -/
theorem analyze_band_in_range_palette_witness :
    analyze_frequency_bands [Sample.mono 0] = 0 ∧
    get_color_for_frequency_band ⟨7, 7, 7⟩
      ((analyze_frequency_bands [Sample.mono 0] : ℕ) : ℤ) ∈ bandColors :=
  ⟨analyze_band_in_range_palette.2.1 [Sample.mono 0] (by decide),
   analyze_band_in_range_palette.2.2.2.1 ⟨7, 7, 7⟩ [Sample.mono 0]⟩

theorem calculate_rms_sq_singleton (v : ℚ) :
    calculate_rms_sq [Sample.mono v] = .ok (v * v) := by
  have h : calculate_rms_sq ([v].map Sample.mono) = _ :=
    calculate_rms_sq_map_mono (by simp)
  simpa using h

theorem rms_gt_eq_false_of {ms t : ℚ} (h1 : ¬ t < 0) (h2 : ¬ t * t < ms) :
    rms_gt ms t = false := by
  simp [rms_gt, h1, h2]

/-- Shape of the callback when a peak is registered: `rms > threshold`
while `peak_detected` is false. -/
theorem audio_callback_peak_eq (opts : AudioOptions) (rand : RGBColor)
    (indata : List Sample) {ms : ℚ} (now : ℚ) (s : AudioState)
    (hms : calculate_rms_sq indata = .ok ms)
    (hb : rms_gt ms opts.peak_threshold = true)
    (hpk : s.peak_detected = false) :
    audio_callback opts rand indata false now s =
      { s with peak_detected := true, peak_start_time := now,
               target_color := peak_target opts rand indata,
               current_color := peak_target opts rand indata,
               is_fading := false } := by
  simp [audio_callback, audio_callback_body, hms, hb, hpk, peak_target]

/-- Shape of the callback while fading with no new peak (`rms` at or
below the threshold, `peak_detected` false, `is_fading` true,
`fade_duration ≠ 0`). -/
theorem audio_callback_fading_eq (opts : AudioOptions) (rand : RGBColor)
    (indata : List Sample) {ms : ℚ} (now : ℚ) (s : AudioState)
    (hms : calculate_rms_sq indata = .ok ms)
    (hng : rms_gt ms opts.peak_threshold = false)
    (hpk : s.peak_detected = false)
    (hfad : s.is_fading = true)
    (hdz : opts.fade_duration ≠ 0) :
    audio_callback opts rand indata false now s =
      if 1 ≤ (now - s.fade_start_time) / opts.fade_duration then
        { s with current_color := black, is_fading := false }
      else
        { s with current_color :=
            ⟨pyint ((s.target_color.red : ℚ) *
                (1 - (now - s.fade_start_time) / opts.fade_duration)),
             pyint ((s.target_color.green : ℚ) *
                (1 - (now - s.fade_start_time) / opts.fade_duration)),
             pyint ((s.target_color.blue : ℚ) *
                (1 - (now - s.fade_start_time) / opts.fade_duration))⟩ } := by
  by_cases h1 : 1 ≤ (now - s.fade_start_time) / opts.fade_duration <;>
    simp [audio_callback, audio_callback_body, hms, hng, hpk, hfad, hdz, h1]

/-- C1: a block whose RMS exceeds `peak_threshold` while `peak_detected`
is false drives the state to Peaking: `peak_detected` becomes true,
`peak_start_time` is the current time, `target_color` is chosen by the
colour mapper (band-driven in loopback mode, the random draw otherwise),
`current_color` equals `target_color` immediately, and the fading flag is
cleared. -/
theorem audio_callback_idle_to_peaking
    (opts : AudioOptions) (rand : RGBColor) (indata : List Sample)
    (r : ℝ) (now : ℚ) (s : AudioState)
    (hr : calculate_rms indata = .ok r)
    (hgt : (opts.peak_threshold : ℝ) < r)
    (hpk : s.peak_detected = false) :
    (audio_callback opts rand indata false now s).peak_detected = true ∧
    (audio_callback opts rand indata false now s).peak_start_time = now ∧
    (audio_callback opts rand indata false now s).target_color =
      peak_target opts rand indata ∧
    (audio_callback opts rand indata false now s).current_color =
      (audio_callback opts rand indata false now s).target_color ∧
    (audio_callback opts rand indata false now s).is_fading = false := by
  obtain ⟨ms, hms, hms0, rfl⟩ := calculate_rms_ok hr
  have hb : rms_gt ms opts.peak_threshold = true := (rms_gt_iff hms0).mpr hgt
  rw [audio_callback_peak_eq opts rand indata now s hms hb hpk]
  exact ⟨rfl, rfl, rfl, rfl, rfl⟩

/-- Witness for C1: a half-scale constant block (RMS `1/2`) above a
threshold of `1/20`, starting from the initial idle state, flashes the
random colour immediately. -/
theorem audio_callback_idle_to_peaking_witness :
    (audio_callback ⟨1/20, 1/10, 1/5, false⟩ ⟨1, 2, 3⟩ [Sample.mono (1/2)]
        false 7 ⟨false, 0, black, black, 0, false⟩).peak_detected = true ∧
    (audio_callback ⟨1/20, 1/10, 1/5, false⟩ ⟨1, 2, 3⟩ [Sample.mono (1/2)]
        false 7 ⟨false, 0, black, black, 0, false⟩).peak_start_time = 7 ∧
    (audio_callback ⟨1/20, 1/10, 1/5, false⟩ ⟨1, 2, 3⟩ [Sample.mono (1/2)]
        false 7 ⟨false, 0, black, black, 0, false⟩).target_color = ⟨1, 2, 3⟩ ∧
    (audio_callback ⟨1/20, 1/10, 1/5, false⟩ ⟨1, 2, 3⟩ [Sample.mono (1/2)]
        false 7 ⟨false, 0, black, black, 0, false⟩).current_color = ⟨1, 2, 3⟩ ∧
    (audio_callback ⟨1/20, 1/10, 1/5, false⟩ ⟨1, 2, 3⟩ [Sample.mono (1/2)]
        false 7 ⟨false, 0, black, black, 0, false⟩).is_fading = false := by
  have hsq : calculate_rms_sq [Sample.mono (1/2)] = .ok (1/2 * (1/2)) :=
    calculate_rms_sq_singleton (1/2)
  have hr : calculate_rms [Sample.mono (1/2)] =
      .ok (Real.sqrt ((1/2 * (1/2) : ℚ) : ℝ)) := by
    rw [calculate_rms, hsq]
    rfl
  have hs : Real.sqrt ((1/2 * (1/2) : ℚ) : ℝ) = 1/2 := by
    rw [show ((1/2 * (1/2) : ℚ) : ℝ) = (1/2 : ℝ) ^ 2 by norm_num,
      Real.sqrt_sq (by norm_num)]
  have hgt : (((1/20 : ℚ)) : ℝ) < Real.sqrt ((1/2 * (1/2) : ℚ) : ℝ) := by
    rw [hs]
    norm_num
  have h := audio_callback_idle_to_peaking ⟨1/20, 1/10, 1/5, false⟩ ⟨1, 2, 3⟩
    [Sample.mono (1/2)] (Real.sqrt ((1/2 * (1/2) : ℚ) : ℝ)) 7
    ⟨false, 0, black, black, 0, false⟩ hr hgt rfl
  refine ⟨h.1, h.2.1, ?_, ?_, h.2.2.2.2⟩
  · rw [h.2.2.1]
    rfl
  · rw [h.2.2.2.1, h.2.2.1]
    rfl

/-- C3: while Peaking and within the hold window
(`now - peak_start_time ≤ peak_duration`) the callback changes nothing:
the state remains Peaking with the same `target_color`, whatever the
block's RMS is (debouncing: minimum peak width `peak_duration`). -/
theorem audio_callback_peak_hold_debounce
    (opts : AudioOptions) (rand : RGBColor) (indata : List Sample)
    (now : ℚ) (s : AudioState)
    (hpk : s.peak_detected = true)
    (hfad : s.is_fading = false)
    (hhold : now - s.peak_start_time ≤ opts.peak_duration) :
    audio_callback opts rand indata false now s = s ∧
    (audio_callback opts rand indata false now s).peak_detected = true ∧
    (audio_callback opts rand indata false now s).target_color =
      s.target_color := by
  have heq : audio_callback opts rand indata false now s = s := by
    have h2 : ¬ opts.peak_duration < now - s.peak_start_time :=
      not_lt.mpr hhold
    cases hms : calculate_rms_sq indata with
    | error e => simp [audio_callback, audio_callback_body, hms, hfad]
    | ok ms => simp [audio_callback, audio_callback_body, hms, hpk, hfad, h2]
  refine ⟨heq, ?_, ?_⟩ <;> rw [heq]
  exact hpk

/-- Witness for C3: an above-threshold block arriving while Peaking,
inside the hold window, is ignored — the state is untouched. -/
theorem audio_callback_peak_hold_debounce_witness :
    audio_callback ⟨1/20, 1/10, 1/5, false⟩ ⟨9, 9, 9⟩ [Sample.mono 1]
        false (1/20) ⟨true, 0, red, red, 0, false⟩ =
      ⟨true, 0, red, red, 0, false⟩ :=
  (audio_callback_peak_hold_debounce ⟨1/20, 1/10, 1/5, false⟩ ⟨9, 9, 9⟩
    [Sample.mono 1] (1/20) ⟨true, 0, red, red, 0, false⟩ rfl rfl
    (by norm_num)).1

/-- C4: a block whose RMS exceeds `peak_threshold` arriving while the
state is Fading re-enters Peaking within the same callback: a freshly
chosen `target_color` is selected, `current_color` is set to it exactly
(no dimmed colour from the abandoned fade is applied for that block), the
fading flag is cleared, and the prior fade progress is discarded. -/
theorem audio_callback_fade_interrupted_by_peak
    (opts : AudioOptions) (rand : RGBColor) (indata : List Sample)
    (r : ℝ) (now : ℚ) (s : AudioState)
    (hr : calculate_rms indata = .ok r)
    (hgt : (opts.peak_threshold : ℝ) < r)
    (hpk : s.peak_detected = false)
    (_hfad : s.is_fading = true) :
    (audio_callback opts rand indata false now s).peak_detected = true ∧
    (audio_callback opts rand indata false now s).peak_start_time = now ∧
    (audio_callback opts rand indata false now s).target_color =
      peak_target opts rand indata ∧
    (audio_callback opts rand indata false now s).current_color =
      (audio_callback opts rand indata false now s).target_color ∧
    (audio_callback opts rand indata false now s).is_fading = false := by
  obtain ⟨ms, hms, hms0, rfl⟩ := calculate_rms_ok hr
  have hb : rms_gt ms opts.peak_threshold = true := (rms_gt_iff hms0).mpr hgt
  rw [audio_callback_peak_eq opts rand indata now s hms hb hpk]
  exact ⟨rfl, rfl, rfl, rfl, rfl⟩

/-- Witness for C4: mid-fade (dimmed current colour, fading flag set), a
loud block re-peaks at once with the fresh colour, fade abandoned. -/
theorem audio_callback_fade_interrupted_by_peak_witness :
    (audio_callback ⟨1/20, 1/10, 1/5, false⟩ ⟨4, 5, 6⟩ [Sample.mono (1/2)]
        false 3 ⟨false, 0, ⟨100, 100, 100⟩, ⟨200, 200, 200⟩, 2, true⟩
      ).peak_detected = true ∧
    (audio_callback ⟨1/20, 1/10, 1/5, false⟩ ⟨4, 5, 6⟩ [Sample.mono (1/2)]
        false 3 ⟨false, 0, ⟨100, 100, 100⟩, ⟨200, 200, 200⟩, 2, true⟩
      ).current_color = ⟨4, 5, 6⟩ ∧
    (audio_callback ⟨1/20, 1/10, 1/5, false⟩ ⟨4, 5, 6⟩ [Sample.mono (1/2)]
        false 3 ⟨false, 0, ⟨100, 100, 100⟩, ⟨200, 200, 200⟩, 2, true⟩
      ).is_fading = false := by
  have hsq : calculate_rms_sq [Sample.mono (1/2)] = .ok (1/2 * (1/2)) :=
    calculate_rms_sq_singleton (1/2)
  have hr : calculate_rms [Sample.mono (1/2)] =
      .ok (Real.sqrt ((1/2 * (1/2) : ℚ) : ℝ)) := by
    rw [calculate_rms, hsq]
    rfl
  have hgt : (((1/20 : ℚ)) : ℝ) < Real.sqrt ((1/2 * (1/2) : ℚ) : ℝ) := by
    rw [show ((1/2 * (1/2) : ℚ) : ℝ) = (1/2 : ℝ) ^ 2 by norm_num,
      Real.sqrt_sq (by norm_num)]
    norm_num
  have h := audio_callback_fade_interrupted_by_peak ⟨1/20, 1/10, 1/5, false⟩
    ⟨4, 5, 6⟩ [Sample.mono (1/2)] (Real.sqrt ((1/2 * (1/2) : ℚ) : ℝ)) 3
    ⟨false, 0, ⟨100, 100, 100⟩, ⟨200, 200, 200⟩, 2, true⟩ hr hgt rfl rfl
  refine ⟨h.1, ?_, h.2.2.2.2⟩
  rw [h.2.2.2.1, h.2.2.1]
  rfl

theorem lerp_color_to_black (c : RGBColor) (t : ℚ) :
    lerp_color c black t =
      ⟨pyint ((c.red : ℚ) * (1 - t)), pyint ((c.green : ℚ) * (1 - t)),
       pyint ((c.blue : ℚ) * (1 - t))⟩ := by
  simp only [lerp_color, black]
  rw [RGBColor.mk.injEq]
  refine ⟨?_, ?_, ?_⟩ <;> exact congrArg pyint (by push_cast; ring)

theorem lerp_color_one_black (c : RGBColor) : lerp_color c black 1 = black := by
  rw [lerp_color_to_black]
  simp [black, pyint_zero]

theorem pyint_fade_bounds {z : ℤ} {p : ℚ} (hz : 0 ≤ z) (_hp0 : 0 ≤ p)
    (hp1 : p < 1) :
    0 ≤ pyint ((z : ℚ) * (1 - p)) ∧ pyint ((z : ℚ) * (1 - p)) ≤ z := by
  have hq0 : (0 : ℚ) ≤ (z : ℚ) * (1 - p) :=
    mul_nonneg (by exact_mod_cast hz) (by linarith)
  have hq1 : (z : ℚ) * (1 - p) ≤ (z : ℚ) := by
    calc (z : ℚ) * (1 - p) ≤ (z : ℚ) * 1 :=
          mul_le_mul_of_nonneg_left (by linarith) (by exact_mod_cast hz)
    _ = (z : ℚ) := mul_one _
  rw [pyint_of_nonneg hq0]
  refine ⟨Int.floor_nonneg.mpr hq0, ?_⟩
  have := Int.floor_mono hq1
  simpa using this

theorem pyint_fade_mono {z : ℤ} {p1 p2 : ℚ} (hz : 0 ≤ z) (h : p1 ≤ p2) :
    pyint ((z : ℚ) * (1 - p2)) ≤ pyint ((z : ℚ) * (1 - p1)) :=
  pyint_mono (mul_le_mul_of_nonneg_left (by linarith) (by exact_mod_cast hz))

/-- C2: while Fading (no new peak in the block), the callback sets
`current_color = lerp(target_color, Black, clamp(progress, 0, 1))` with
`progress = (now - fade_start) / fade_duration`; each channel stays
between 0 and the corresponding `target_color` channel (a convex
combination of `target_color` and Black up to `int` truncation) and
decreases monotonically with elapsed time; once `progress ≥ 1` the colour
is exactly Black and the state is Idle (fading flag cleared). -/
theorem audio_callback_fading_behaviour
    (opts : AudioOptions) (rand : RGBColor) (indata : List Sample)
    (r : ℝ) (s : AudioState)
    (hr : calculate_rms indata = .ok r)
    (hle : r ≤ (opts.peak_threshold : ℝ))
    (hpk : s.peak_detected = false)
    (hfad : s.is_fading = true)
    (hdur : 0 < opts.fade_duration)
    (htr : 0 ≤ s.target_color.red)
    (htg : 0 ≤ s.target_color.green)
    (htb : 0 ≤ s.target_color.blue) :
    (∀ now : ℚ, s.fade_start_time ≤ now →
      (audio_callback opts rand indata false now s).current_color =
        lerp_color s.target_color black
          (min 1 ((now - s.fade_start_time) / opts.fade_duration)) ∧
      (0 ≤ (audio_callback opts rand indata false now s).current_color.red ∧
        (audio_callback opts rand indata false now s).current_color.red ≤
          s.target_color.red) ∧
      (0 ≤ (audio_callback opts rand indata false now s).current_color.green ∧
        (audio_callback opts rand indata false now s).current_color.green ≤
          s.target_color.green) ∧
      (0 ≤ (audio_callback opts rand indata false now s).current_color.blue ∧
        (audio_callback opts rand indata false now s).current_color.blue ≤
          s.target_color.blue) ∧
      (1 ≤ (now - s.fade_start_time) / opts.fade_duration →
        (audio_callback opts rand indata false now s).current_color = black ∧
        (audio_callback opts rand indata false now s).is_fading = false ∧
        (audio_callback opts rand indata false now s).peak_detected = false) ∧
      ((now - s.fade_start_time) / opts.fade_duration < 1 →
        (audio_callback opts rand indata false now s).is_fading = true)) ∧
    (∀ now1 now2 : ℚ, s.fade_start_time ≤ now1 → now1 ≤ now2 →
      (audio_callback opts rand indata false now2 s).current_color.red ≤
        (audio_callback opts rand indata false now1 s).current_color.red ∧
      (audio_callback opts rand indata false now2 s).current_color.green ≤
        (audio_callback opts rand indata false now1 s).current_color.green ∧
      (audio_callback opts rand indata false now2 s).current_color.blue ≤
        (audio_callback opts rand indata false now1 s).current_color.blue) := by
  obtain ⟨ms, hms, hms0, rfl⟩ := calculate_rms_ok hr
  have hng : rms_gt ms opts.peak_threshold = false :=
    (rms_gt_eq_false hms0).mpr hle
  have hdz : opts.fade_duration ≠ 0 := ne_of_gt hdur
  have hshape := fun now =>
    audio_callback_fading_eq opts rand indata now s hms hng hpk hfad hdz
  constructor
  · intro now hnow
    have hp0 : 0 ≤ (now - s.fade_start_time) / opts.fade_duration :=
      div_nonneg (by linarith) hdur.le
    rw [hshape now]
    by_cases hp1 : 1 ≤ (now - s.fade_start_time) / opts.fade_duration
    · rw [if_pos hp1]
      refine ⟨?_, ⟨le_refl 0, htr⟩, ⟨le_refl 0, htg⟩, ⟨le_refl 0, htb⟩,
        fun _ => ⟨rfl, rfl, hpk⟩, fun hlt => absurd hp1 (not_le.mpr hlt)⟩
      rw [min_eq_left hp1, lerp_color_one_black]
    · have hp2 : (now - s.fade_start_time) / opts.fade_duration < 1 :=
        not_le.mp hp1
      rw [if_neg hp1]
      refine ⟨?_, ?_, ?_, ?_, fun hge => absurd hge hp1, fun _ => hfad⟩
      · rw [min_eq_right hp2.le, lerp_color_to_black]
      · exact pyint_fade_bounds htr hp0 hp2
      · exact pyint_fade_bounds htg hp0 hp2
      · exact pyint_fade_bounds htb hp0 hp2
  · intro now1 now2 h1 h12
    have hple : (now1 - s.fade_start_time) / opts.fade_duration ≤
        (now2 - s.fade_start_time) / opts.fade_duration :=
      (div_le_div_iff_of_pos_right hdur).mpr (by linarith)
    have hp10 : 0 ≤ (now1 - s.fade_start_time) / opts.fade_duration :=
      div_nonneg (by linarith) hdur.le
    rw [hshape now1, hshape now2]
    by_cases ha : 1 ≤ (now1 - s.fade_start_time) / opts.fade_duration
    · rw [if_pos ha, if_pos (le_trans ha hple)]
      exact ⟨le_refl 0, le_refl 0, le_refl 0⟩
    · have ha2 : (now1 - s.fade_start_time) / opts.fade_duration < 1 :=
        not_le.mp ha
      rw [if_neg ha]
      by_cases hb : 1 ≤ (now2 - s.fade_start_time) / opts.fade_duration
      · rw [if_pos hb]
        exact ⟨(pyint_fade_bounds htr hp10 ha2).1,
          (pyint_fade_bounds htg hp10 ha2).1,
          (pyint_fade_bounds htb hp10 ha2).1⟩
      · rw [if_neg hb]
        exact ⟨pyint_fade_mono htr hple, pyint_fade_mono htg hple,
          pyint_fade_mono htb hple⟩

/-- Witness for C2: halfway through a fade of a `(200,100,50)` target
(progress `1/2`), the colour is the half-dimmed `(100,50,25)` and the
state is still Fading. -/
theorem audio_callback_fading_behaviour_witness :
    (audio_callback ⟨1/20, 1/10, 1/5, false⟩ ⟨9, 9, 9⟩ [Sample.mono 0]
        false (1/10) ⟨false, 0, ⟨200, 100, 50⟩, ⟨200, 100, 50⟩, 0, true⟩
      ).current_color = ⟨100, 50, 25⟩ ∧
    (audio_callback ⟨1/20, 1/10, 1/5, false⟩ ⟨9, 9, 9⟩ [Sample.mono 0]
        false (1/10) ⟨false, 0, ⟨200, 100, 50⟩, ⟨200, 100, 50⟩, 0, true⟩
      ).is_fading = true := by
  have hsq : calculate_rms_sq [Sample.mono 0] = .ok (0 * 0) :=
    calculate_rms_sq_singleton 0
  have hr : calculate_rms [Sample.mono 0] =
      .ok (Real.sqrt ((0 * 0 : ℚ) : ℝ)) := by
    rw [calculate_rms, hsq]
    rfl
  have hle : Real.sqrt ((0 * 0 : ℚ) : ℝ) ≤ (((1/20 : ℚ)) : ℝ) := by
    rw [show ((0 * 0 : ℚ) : ℝ) = 0 by norm_num, Real.sqrt_zero]
    norm_num
  have h := (audio_callback_fading_behaviour ⟨1/20, 1/10, 1/5, false⟩ ⟨9, 9, 9⟩
    [Sample.mono 0] (Real.sqrt ((0 * 0 : ℚ) : ℝ))
    ⟨false, 0, ⟨200, 100, 50⟩, ⟨200, 100, 50⟩, 0, true⟩ hr hle rfl rfl
    (by norm_num) (by norm_num) (by norm_num) (by norm_num)).1 (1/10)
    (by norm_num)
  have hprog : min (1 : ℚ) (((1/10 : ℚ) - 0) / (1/5)) = 1/2 := by norm_num
  refine ⟨?_, ?_⟩
  · rw [h.1]
    show lerp_color ⟨200, 100, 50⟩ black _ = _
    rw [hprog, lerp_color_to_black]
    rw [RGBColor.mk.injEq]
    norm_num [pyint]
  · exact h.2.2.2.2.2 (by norm_num)

theorem pyint_intCast (z : ℤ) : pyint ((z : ℤ) : ℚ) = z := by
  rw [pyint]
  split_ifs with h
  · exact Int.ceil_intCast z
  · exact Int.floor_intCast z

theorem clamp_brightness_one (c : RGBColor) : clamp_brightness 1 c = c := by
  obtain ⟨r, g, b⟩ := c
  unfold clamp_brightness
  rw [RGBColor.mk.injEq]
  refine ⟨?_, ?_, ?_⟩ <;> rw [mul_one] <;> exact pyint_intCast _

/-- Counterexample to C7: with `fade_duration = 0`, the callback that
releases an expired peak first mutates the state (clears `peak_detected`,
records `fade_start_time`, sets `is_fading`) and only then raises
`ZeroDivisionError` computing the fade progress; the exception is caught,
but the state after the callback differs from the state before it. -/
theorem audio_callback_exception_mutates_state :
    audio_callback_body ⟨1/20, 1/10, 0, false⟩ black [Sample.mono 0] 1
        ⟨true, 0, red, red, 0, false⟩ =
      .error (.zeroDivisionError, ⟨false, 0, red, red, 1, true⟩) ∧
    audio_callback ⟨1/20, 1/10, 0, false⟩ black [Sample.mono 0] false 1
        ⟨true, 0, red, red, 0, false⟩ =
      ⟨false, 0, red, red, 1, true⟩ ∧
    (⟨false, 0, red, red, 1, true⟩ : AudioState) ≠
      ⟨true, 0, red, red, 0, false⟩ := by
  have hms := calculate_rms_sq_singleton 0
  have hng : rms_gt (0 * 0) (1/20) = false :=
    rms_gt_eq_false_of (by norm_num) (by norm_num)
  have hdec : decide ((1/10 : ℚ) < 1 - 0) = true := decide_eq_true (by norm_num)
  have hbody : audio_callback_body ⟨1/20, 1/10, 0, false⟩ black
      [Sample.mono 0] 1 ⟨true, 0, red, red, 0, false⟩ =
      .error (.zeroDivisionError, ⟨false, 0, red, red, 1, true⟩) := by
    simp [audio_callback_body, hms, hng, hdec]
    norm_num
  have hcatch : ∀ (o : AudioOptions) (ra : RGBColor) (ind : List Sample)
      (t : ℚ) (st st1 : AudioState) (e : PyErr),
      audio_callback_body o ra ind t st = .error (e, st1) →
      audio_callback o ra ind false t st = st1 := by
    intro o ra ind t st st1 e h
    simp [audio_callback, h]
  exact ⟨hbody, hcatch _ _ _ _ _ _ _ hbody, by simp⟩

/-- C7 (amended): a callback delivered with a truthy status flag drops
the block before any processing and leaves the state unchanged; an
exception raised inside the callback body is caught and not propagated
(the stream continues), the block's remaining processing is skipped, and
the state is the one reached at the exception point — unchanged when the
exception occurs before any mutation (e.g. while computing the RMS), but
mutations already performed in that callback persist. -/
theorem audio_callback_error_recovery :
    (∀ (opts : AudioOptions) (rand : RGBColor) (indata : List Sample)
        (now : ℚ) (s : AudioState),
      audio_callback opts rand indata true now s = s) ∧
    (∀ (opts : AudioOptions) (rand : RGBColor) (indata : List Sample)
        (now : ℚ) (s s1 : AudioState) (e : PyErr),
      audio_callback_body opts rand indata now s = .error (e, s1) →
      audio_callback opts rand indata false now s = s1) ∧
    (∀ (opts : AudioOptions) (rand : RGBColor) (indata : List Sample)
        (now : ℚ) (s : AudioState) (e : PyErr),
      calculate_rms_sq indata = .error e →
      audio_callback opts rand indata false now s = s) := by
  refine ⟨fun _ _ _ _ _ => rfl, ?_, ?_⟩
  · intro opts rand indata now s s1 e h
    simp [audio_callback, h]
  · intro opts rand indata now s e h
    simp [audio_callback, audio_callback_body, h]

/-- Witness for C7 (amended): the caught `ZeroDivisionError` keeps the
partially mutated state. -/
theorem audio_callback_error_recovery_witness :
    audio_callback ⟨1/20, 1/10, 0, false⟩ black [Sample.mono 0] false 1
        ⟨true, 0, red, red, 0, false⟩ = ⟨false, 0, red, red, 1, true⟩ := by
  have hms := calculate_rms_sq_singleton 0
  have hng : rms_gt (0 * 0) (1/20) = false :=
    rms_gt_eq_false_of (by norm_num) (by norm_num)
  have hdec : decide ((1/10 : ℚ) < 1 - 0) = true := decide_eq_true (by norm_num)
  exact audio_callback_error_recovery.2.1 _ _ _ _ _ _ PyErr.zeroDivisionError
    (by simp [audio_callback_body, hms, hng, hdec]; norm_num)

/-- Counterexample to C8: `stop()` does emit a final colour — with one
target device and full brightness it transmits Black once (via
`turn_off_target_devices`), not nothing. -/
theorem audio_stop_emits_final_color :
    (audio_stop ⟨true, true⟩ 1 1).2 = [black] ∧
    (audio_stop ⟨true, true⟩ 1 1).2 ≠ ([] : List RGBColor) := by
  have h : (audio_stop ⟨true, true⟩ 1 1).2 = [black] := by
    simp [audio_stop, turn_off_target_devices, set_all_target_devices_color,
      clamp_brightness, black, pyint_zero]
  exact ⟨h, by rw [h]; simp⟩

/-- C8 (amended): `stop` releases the audio resource (clears `running`,
stops and closes the stream) and then itself turns the target devices
off: it transmits Black (invariant under brightness clamping) to every
target device via `turn_off_target_devices`; switching the outputs off is
not left to the caller's render loop. -/
theorem audio_stop_turns_off_devices (rs : EffectRunState) (mb : ℚ)
    (nd : ℕ) :
    (audio_stop rs mb nd).1.running = false ∧
    (audio_stop rs mb nd).1.stream_open = false ∧
    (audio_stop rs mb nd).2 = List.replicate nd black := by
  refine ⟨rfl, rfl, ?_⟩
  simp [audio_stop, turn_off_target_devices, set_all_target_devices_color,
    clamp_brightness, black, pyint_zero]

/-- Counterexample to C9: in one render-loop iteration the device write
happens strictly between lock acquisition and lock release — device I/O
is performed while the mutual-exclusion lock is held. -/
theorem audio_loop_device_write_under_lock :
    audio_loop_trace true 1 1 red =
      [LoopEvent.lockAcquire, LoopEvent.deviceWrite red,
       LoopEvent.lockRelease] ∧
    (audio_loop_trace true 1 1 red)[1]? =
      some (LoopEvent.deviceWrite red) ∧
    (audio_loop_trace true 1 1 red).head? = some LoopEvent.lockAcquire ∧
    (audio_loop_trace true 1 1 red).getLast? = some LoopEvent.lockRelease := by
  have h : audio_loop_trace true 1 1 red =
      [LoopEvent.lockAcquire, LoopEvent.deviceWrite red,
       LoopEvent.lockRelease] := by
    have hc : clamp_brightness 1 red = red := clamp_brightness_one red
    simp [audio_loop_trace, set_all_target_devices_color, hc]
  refine ⟨h, ?_, ?_, ?_⟩ <;> rw [h] <;> rfl

/-- C9 (amended): the render loop acquires the state lock, performs all
its device I/O (the brightness-clamped current colour, written once per
target device) while holding the lock, and releases the lock afterwards;
the colour it transmits is the single snapshot read under that lock.
With the `running` guard of `audio.py` cleared, the loop does nothing. -/
theorem audio_loop_trace_shape (mb : ℚ) (nd : ℕ) (c : RGBColor) :
    audio_loop_trace true mb nd c =
      LoopEvent.lockAcquire ::
        (List.replicate nd (LoopEvent.deviceWrite (clamp_brightness mb c)) ++
          [LoopEvent.lockRelease]) ∧
    audio_loop_trace false mb nd c = [] := by
  constructor
  · simp [audio_loop_trace, set_all_target_devices_color, List.map_replicate]
  · rfl

end OpenRGBScripts
